import Mathlib

/-!
# Verification of the Cygni Arcana star-plotting pipeline

Shallow embedding of `src/cygni_arcana/cygni_arcana.py`: the coordinate
transform `galactic_to_cartesian`, the x-axis bucketing `categorize_x_plot`,
and the ordinal y-ranking `rank_y_plot`, together with the literal star
catalog `STARS`.  Real-valued quantities are modelled over `ℝ`.
-/

namespace CygniArcana

/-- `math.radians`: degrees to radians. -/
noncomputable def radians (deg : ℝ) : ℝ := deg * (Real.pi / 180)

/-- The star records of the catalog: the fields consumed by the plotting
pipeline (`name`, `distance`, `longitude`, `latitude`, `size`, `tarot`,
`roman`, `color`, optional `edge_color`). -/
structure StarRec where
  name : String
  distance : ℝ
  longitude : ℝ
  latitude : ℝ
  size : ℝ
  tarot : String
  roman : String
  color : String
  edge_color : Option String := none

/-- The named tuple `CartesianCoords(x_plot, y_plot)`. -/
structure CartesianCoords where
  x_plot : ℝ
  y_plot : ℝ

/-- `galactic_to_cartesian(distance, longitude_deg, latitude_deg)`:
project onto the galactic plane (`planar_distance = distance * cos(lat)`),
then `x_plot = planar * sin(lon)`, `y_plot = planar * cos(lon)`. -/
noncomputable def galactic_to_cartesian (distance longitude_deg latitude_deg : ℝ) :
    CartesianCoords :=
  let longitude_rad := radians longitude_deg
  let latitude_rad := radians latitude_deg
  let planar_distance := distance * Real.cos latitude_rad
  { x_plot := planar_distance * Real.sin longitude_rad
    y_plot := planar_distance * Real.cos longitude_rad }

/-- `categorize_x_plot(perpendicular_distance)`: bucket the absolute
distance from the GC-Sol-GAC line with strict thresholds 1, 12, 70 and
flip the sign (`sign = -1 if perpendicular_distance >= 0 else 1`). -/
noncomputable def categorize_x_plot (perpendicular_distance : ℝ) : ℝ :=
  let abs_distance := |perpendicular_distance|
  let sign : ℝ := if 0 ≤ perpendicular_distance then -1 else 1
  if abs_distance < 1 then 0
  else if abs_distance < 12 then sign * 0.5
  else if abs_distance < 70 then sign * 1
  else sign * 2

/-- C2: `galactic_to_cartesian` returns the pair
`(distance * cos(lat_rad) * sin(lon_rad), distance * cos(lat_rad) * cos(lon_rad))`
where the angles are the degree inputs times `π / 180`. -/
theorem galactic_to_cartesian_formula (distance longitude_deg latitude_deg : ℝ) :
    (galactic_to_cartesian distance longitude_deg latitude_deg).x_plot =
      distance * Real.cos (latitude_deg * (Real.pi / 180)) *
        Real.sin (longitude_deg * (Real.pi / 180)) ∧
    (galactic_to_cartesian distance longitude_deg latitude_deg).y_plot =
      distance * Real.cos (latitude_deg * (Real.pi / 180)) *
        Real.cos (longitude_deg * (Real.pi / 180)) := by
  constructor <;> rfl

/-- C8: `galactic_to_cartesian` is total over `ℝ` and accepts out-of-range
angles by trigonometric periodicity: adding 360° to the longitude leaves
the result unchanged. -/
theorem galactic_to_cartesian_periodic (distance longitude_deg latitude_deg : ℝ) :
    galactic_to_cartesian distance (longitude_deg + 360) latitude_deg =
      galactic_to_cartesian distance longitude_deg latitude_deg := by
  have h : radians (longitude_deg + 360) = radians longitude_deg + 2 * Real.pi := by
    unfold radians; ring
  unfold galactic_to_cartesian
  dsimp only
  rw [h, Real.sin_add_two_pi, Real.cos_add_two_pi]

/-- Unfolding of `categorize_x_plot` into an explicit nested conditional. -/
theorem categorize_x_plot_eq (p : ℝ) : categorize_x_plot p =
    if |p| < 1 then 0
    else if |p| < 12 then (if 0 ≤ p then (-1 : ℝ) else 1) * 0.5
    else if |p| < 70 then (if 0 ≤ p then (-1 : ℝ) else 1) * 1
    else (if 0 ≤ p then (-1 : ℝ) else 1) * 2 := rfl

/-- C3: `categorize_x_plot` buckets by strict absolute-value thresholds
1, 12, 70, an offset exactly at a threshold falling in the farther bucket,
and flips the sign of every nonzero result relative to the input. -/
theorem categorize_x_plot_thresholds (p : ℝ) :
    (|p| < 1 → categorize_x_plot p = 0) ∧
    (1 ≤ |p| → |p| < 12 → categorize_x_plot p = if 0 ≤ p then -0.5 else 0.5) ∧
    (12 ≤ |p| → |p| < 70 → categorize_x_plot p = if 0 ≤ p then -1 else 1) ∧
    (70 ≤ |p| → categorize_x_plot p = if 0 ≤ p then -2 else 2) ∧
    (0 < p → 1 ≤ |p| → categorize_x_plot p < 0) ∧
    (p < 0 → 1 ≤ |p| → 0 < categorize_x_plot p) := by
  rw [categorize_x_plot_eq]
  refine ⟨fun h1 => ?_, fun h1 h2 => ?_, fun h1 h2 => ?_, fun h1 => ?_,
    fun hp h1 => ?_, fun hp h1 => ?_⟩
  · rw [if_pos h1]
  · rw [if_neg (not_lt.mpr h1), if_pos h2]
    by_cases hp : 0 ≤ p
    · simp only [if_pos hp]; norm_num
    · simp only [if_neg hp]; norm_num
  · rw [if_neg (not_lt.mpr (by linarith)), if_neg (not_lt.mpr h1), if_pos h2]
    by_cases hp : 0 ≤ p
    · simp only [if_pos hp]; norm_num
    · simp only [if_neg hp]; norm_num
  · rw [if_neg (not_lt.mpr (by linarith)), if_neg (not_lt.mpr (by linarith)),
      if_neg (not_lt.mpr h1)]
    by_cases hp : 0 ≤ p
    · simp only [if_pos hp]; norm_num
    · simp only [if_neg hp]; norm_num
  · rw [if_neg (not_lt.mpr h1), if_pos hp.le]
    rcases lt_or_le (|p|) 12 with h2 | h2
    · rw [if_pos h2]; norm_num
    · rw [if_neg (not_lt.mpr h2)]
      rcases lt_or_le (|p|) 70 with h3 | h3
      · rw [if_pos h3]; norm_num
      · rw [if_neg (not_lt.mpr h3)]; norm_num
  · rw [if_neg (not_lt.mpr h1), if_neg (not_le.mpr hp)]
    rcases lt_or_le (|p|) 12 with h2 | h2
    · rw [if_pos h2]; norm_num
    · rw [if_neg (not_lt.mpr h2)]
      rcases lt_or_le (|p|) 70 with h3 | h3
      · rw [if_pos h3]; norm_num
      · rw [if_neg (not_lt.mpr h3)]; norm_num

/-- Witness for `categorize_x_plot_thresholds` at `p = 5`. -/
theorem categorize_x_plot_thresholds_witness :
    (1 ≤ |(5 : ℝ)| ∧ |(5 : ℝ)| < 12) ∧ categorize_x_plot 5 = -0.5 := by
  refine ⟨⟨by norm_num, by norm_num⟩, ?_⟩
  have h := (categorize_x_plot_thresholds 5).2.1 (by norm_num) (by norm_num)
  rw [h, if_pos (by norm_num : (0 : ℝ) ≤ 5)]

/-- C7: every output of `categorize_x_plot` lies in the seven-value set
`{-2, -1, -0.5, 0, 0.5, 1, 2}`. -/
theorem categorize_x_plot_range (p : ℝ) :
    categorize_x_plot p ∈ ({-2, -1, -0.5, 0, 0.5, 1, 2} : Set ℝ) := by
  rw [categorize_x_plot_eq]
  simp only [Set.mem_insert_iff, Set.mem_singleton_iff]
  rcases lt_or_le (|p|) 1 with h1 | h1
  · rw [if_pos h1]; norm_num
  · rw [if_neg (not_lt.mpr h1)]
    rcases lt_or_le (|p|) 12 with h2 | h2
    · rw [if_pos h2]
      by_cases hp : 0 ≤ p
      · simp only [if_pos hp]; norm_num
      · simp only [if_neg hp]; norm_num
    · rw [if_neg (not_lt.mpr h2)]
      rcases lt_or_le (|p|) 70 with h3 | h3
      · rw [if_pos h3]
        by_cases hp : 0 ≤ p
        · simp only [if_pos hp]; norm_num
        · simp only [if_neg hp]; norm_num
      · rw [if_neg (not_lt.mpr h3)]
        by_cases hp : 0 ≤ p
        · simp only [if_pos hp]; norm_num
        · simp only [if_neg hp]; norm_num

/-- The literal star catalog `STARS`. -/
def STARS : List StarRec :=
  [{ name := "Sagittarius A*", distance := 26000, longitude := 0, latitude := 0,
     size := 60, tarot := "Wheel of Fortune", roman := "X", color := "#000000" },
   { name := "Sol", distance := 0, longitude := 180, latitude := 0,
     size := 40, tarot := "The Sun", roman := "XIX", color := "#FFFF00" },
   { name := "T Coronae Borealis", distance := 3000, longitude := 55, latitude := 15.8,
     size := 30, tarot := "Judgment", roman := "XX", color := "#FFFFFF" },
   { name := "Sheliak", distance := 960, longitude := 63, latitude := 8.7,
     size := 25, tarot := "The Moon", roman := "XVIII", color := "#1C1CF0" },
   { name := "Antares", distance := 550, longitude := 351, latitude := -4.6,
     size := 55, tarot := "The Hierophant", roman := "V", color := "#FF4500" },
   { name := "Deneb", distance := 1500, longitude := 80, latitude := 2.1,
     size := 45, tarot := "The High Priestess", roman := "II", color := "#CFE2F3" },
   { name := "Albireo", distance := 430, longitude := 62, latitude := -1.2,
     size := 20, tarot := "The Lovers", roman := "VI", color := "#FFD700",
     edge_color := some "#0080FF" },
   { name := "Spica", distance := 250, longitude := 316, latitude := 50.8,
     size := 25, tarot := "Strength", roman := "VIII", color := "#7B68EE" },
   { name := "Achernar", distance := 139, longitude := 290, latitude := -57.1,
     size := 25, tarot := "The Hanged Man", roman := "XII", color := "#00BFFF" },
   { name := "Zubenelgenubi", distance := 77, longitude := 347, latitude := -16.0,
     size := 25, tarot := "Justice", roman := "XI", color := "#FFFFE0" },
   { name := "Arcturus", distance := 36.7, longitude := 15, latitude := 69.1,
     size := 30, tarot := "The Magician", roman := "I", color := "#FF8C00" },
   { name := "Fomalhaut", distance := 25, longitude := 20, latitude := -65.0,
     size := 20, tarot := "The Star", roman := "XVII", color := "#FFFFFF" },
   { name := "Vega", distance := 25, longitude := 67, latitude := 19.2,
     size := 20, tarot := "The Empress", roman := "III", color := "#E0FFFF" },
   { name := "Alpha Centauri", distance := 4.37, longitude := 315, latitude := -0.7,
     size := 20, tarot := "The World", roman := "XXI", color := "#FFD700" },
   { name := "Sirius", distance := 8.6, longitude := 227, latitude := -8.9,
     size := 20, tarot := "The Fool", roman := "0", color := "#ADD8E6" },
   { name := "Tau Ceti", distance := 12, longitude := 172, latitude := -15.6,
     size := 20, tarot := "Temperance", roman := "XIV", color := "#F5DEB3" },
   { name := "Capella", distance := 42.9, longitude := 162, latitude := 4.6,
     size := 25, tarot := "The Chariot", roman := "VII", color := "#FFDAB9" },
   { name := "Regulus", distance := 79, longitude := 226, latitude := 0.5,
     size := 25, tarot := "The Emperor", roman := "IV", color := "#A9A9F5" },
   { name := "Algol", distance := 93, longitude := 151, latitude := 22.3,
     size := 25, tarot := "The Devil", roman := "XV", color := "#FF6347" },
   { name := "Mira", distance := 420, longitude := 171, latitude := -2.9,
     size := 30, tarot := "Death", roman := "XIII", color := "#FF4500" },
   { name := "Betelgeuse", distance := 642, longitude := 199, latitude := 9.0,
     size := 60, tarot := "The Tower", roman := "XVI", color := "#FF4500" },
   { name := "Canopus", distance := 310, longitude := 261.2, latitude := -25.3,
     size := 35, tarot := "The Hermit", roman := "IX", color := "#F0E68C" },
   { name := "Eltanin", distance := 154, longitude := 94, latitude := 9.8,
     size := 25, tarot := "Wands", roman := "♣", color := "#FF4500" },
   { name := "Thuban", distance := 309, longitude := 96, latitude := 25.6,
     size := 25, tarot := "Cups", roman := "♥", color := "#ADD8E6" },
   { name := "Polaris", distance := 433, longitude := 123, latitude := 27.2,
     size := 25, tarot := "Swords", roman := "♠", color := "#F0E68C" },
   { name := "Algenib", distance := 390, longitude := 162, latitude := -16.7,
     size := 25, tarot := "Pentacles", roman := "♦", color := "#FFD700" }]

/-- `sin(351°)` in radians is `-sin(π/20)`. -/
theorem sin_radians_351 : Real.sin (radians 351) = -Real.sin (Real.pi / 20) := by
  have h : radians 351 = -(Real.pi / 20) + 2 * Real.pi := by unfold radians; ring
  rw [h, Real.sin_add_two_pi, Real.sin_neg]

/-- Numerical bounds for `sin(π/20)`. -/
theorem sin_pi_div_20_bounds :
    0.156 < Real.sin (Real.pi / 20) ∧ Real.sin (Real.pi / 20) < 0.15708 := by
  have h1 : (0.1570796 : ℝ) < Real.pi / 20 := by linarith [Real.pi_gt_d6]
  have h2 : Real.pi / 20 < 0.15708 := by linarith [Real.pi_lt_d6]
  constructor
  · have hgt := Real.sin_gt_sub_cube (by linarith) (by linarith : Real.pi / 20 ≤ 1)
    have hcube : (Real.pi / 20) ^ 3 < 0.15708 ^ 3 := by
      exact pow_lt_pow_left h2 (by linarith) (by norm_num)
    nlinarith
  · exact lt_trans (Real.sin_lt (by linarith)) h2

/-- Numerical bounds for `cos(-4.6°)` in radians, the Antares latitude factor. -/
theorem cos_radians_antares_lat_bounds :
    0.9967 < Real.cos (radians (-4.6)) ∧ Real.cos (radians (-4.6)) < 1 := by
  have h : radians (-4.6) = -(4.6 * (Real.pi / 180)) := by unfold radians; ring
  rw [h, Real.cos_neg]
  have hA1 : (0 : ℝ) < 4.6 * (Real.pi / 180) := by
    have := Real.pi_pos; positivity
  have hA2 : 4.6 * (Real.pi / 180) < 0.0803 := by linarith [Real.pi_lt_d6]
  constructor
  · have hlb := Real.one_sub_sq_div_two_le_cos (x := 4.6 * (Real.pi / 180))
    nlinarith
  · have habs : |4.6 * (Real.pi / 180)| ≤ Real.pi := by
      rw [abs_of_pos hA1]; linarith [Real.pi_gt_d6]
    have hub := Real.cos_le_one_sub_mul_cos_sq (x := 4.6 * (Real.pi / 180)) habs
    have hpos : 0 < 2 / Real.pi ^ 2 * (4.6 * (Real.pi / 180)) ^ 2 := by positivity
    linarith

/-- C6 counterexample: the perpendicular offset the code computes for the
Antares record is NOT `550 * sin(351°)`, because the code multiplies in
`cos(latitude)` with latitude `-4.6`. -/
theorem antares_offset_ne_claimed :
    (galactic_to_cartesian 550 351 (-4.6)).x_plot ≠ 550 * Real.sin (radians 351) := by
  obtain ⟨hs1, hs2⟩ := sin_pi_div_20_bounds
  obtain ⟨hc1, hc2⟩ := cos_radians_antares_lat_bounds
  have hx : (galactic_to_cartesian 550 351 (-4.6)).x_plot =
      550 * Real.cos (radians (-4.6)) * Real.sin (radians 351) := rfl
  rw [hx, sin_radians_351]
  intro h
  nlinarith [h]

/-- C6 (amended): for the literal Antares record (distance 550, longitude
351, latitude -4.6), the perpendicular offset is
`550 * cos(-4.6°) * sin(351°)`, approximately `-85.8` (strictly between
`-86.4` and `-85.5`), and `categorize_x_plot` maps it to the bucket `+2`. -/
theorem antares_offset_bucket :
    (∃ s ∈ STARS, s.name = "Antares" ∧ s.distance = 550 ∧ s.longitude = 351 ∧
      s.latitude = -4.6) ∧
    (galactic_to_cartesian 550 351 (-4.6)).x_plot =
      550 * Real.cos (radians (-4.6)) * Real.sin (radians 351) ∧
    (-86.4 < (galactic_to_cartesian 550 351 (-4.6)).x_plot ∧
      (galactic_to_cartesian 550 351 (-4.6)).x_plot < -85.5) ∧
    categorize_x_plot ((galactic_to_cartesian 550 351 (-4.6)).x_plot) = 2 := by
  obtain ⟨hs1, hs2⟩ := sin_pi_div_20_bounds
  obtain ⟨hc1, hc2⟩ := cos_radians_antares_lat_bounds
  have hx : (galactic_to_cartesian 550 351 (-4.6)).x_plot =
      550 * Real.cos (radians (-4.6)) * Real.sin (radians 351) := rfl
  have hxv : (galactic_to_cartesian 550 351 (-4.6)).x_plot =
      -(550 * Real.cos (radians (-4.6)) * Real.sin (Real.pi / 20)) := by
    rw [hx, sin_radians_351]; ring
  have hlo : -86.4 < (galactic_to_cartesian 550 351 (-4.6)).x_plot := by
    rw [hxv]; nlinarith
  have hhi : (galactic_to_cartesian 550 351 (-4.6)).x_plot < -85.5 := by
    rw [hxv]; nlinarith
  refine ⟨?_, hx, ⟨hlo, hhi⟩, ?_⟩
  · refine ⟨StarRec.mk "Antares" 550 351 (-4.6) 55 "The Hierophant" "V" "#FF4500" none,
      ?_, rfl, rfl, rfl, rfl⟩
    unfold STARS
    exact List.mem_cons_of_mem _ (List.mem_cons_of_mem _ (List.mem_cons_of_mem _
      (List.mem_cons_of_mem _ (List.mem_cons_self _ _))))
  · set x := (galactic_to_cartesian 550 351 (-4.6)).x_plot with hxdef
    have hneg : x < 0 := by linarith
    rw [categorize_x_plot_eq, abs_of_neg hneg]
    have h1 : ¬(-x < 1) := not_lt.mpr (by linarith)
    have h2 : ¬(-x < 12) := not_lt.mpr (by linarith)
    have h3 : ¬(-x < 70) := not_lt.mpr (by linarith)
    have h4 : ¬(0 ≤ x) := not_le.mpr hneg
    rw [if_neg h1, if_neg h2, if_neg h3, if_neg h4]
    norm_num

/-- The records built inside `rank_y_plot`: a star name paired with its
`y_plot` coordinate. -/
structure RankedStar where
  name : String
  y_plot : ℝ

/-- The `y_plot` coordinate (along-line offset) of a star record, as
computed inside `rank_y_plot`. -/
noncomputable def star_y_plot (s : StarRec) : ℝ :=
  (galactic_to_cartesian s.distance s.longitude s.latitude).y_plot

/-- The list `regular_stars` of `rank_y_plot`: every catalog record whose
name is not one of the two anchors, paired with its `y_plot`. -/
noncomputable def regular_stars (all_stars : List StarRec) : List RankedStar :=
  (all_stars.filter (fun s => decide (s.name ∉ ["Sagittarius A*", "Sol"]))).map
    (fun s => RankedStar.mk s.name (star_y_plot s))

/-- `regular_stars.sort(key=lambda x: x['y_plot'], reverse=True)`: a stable
descending sort by `y_plot`. -/
noncomputable def sorted_regular_stars (all_stars : List StarRec) : List RankedStar :=
  (regular_stars all_stars).mergeSort (fun a b => decide (b.y_plot ≤ a.y_plot))

/-- `positive_stars`: the members of the sorted regular list with
`y_plot > 0` (closer to the galactic center than the observer). -/
noncomputable def positive_stars (all_stars : List StarRec) : List RankedStar :=
  (sorted_regular_stars all_stars).filter (fun s => decide (0 < s.y_plot))

/-- `negative_stars`: the members of the sorted regular list with
`y_plot <= 0` (farther from the galactic center than the observer). -/
noncomputable def negative_stars (all_stars : List StarRec) : List RankedStar :=
  (sorted_regular_stars all_stars).filter (fun s => decide (s.y_plot ≤ 0))

/-- `rank_y_plot` with its control flow made explicit: `some v` when one of
the named `return` statements fires with value `v`, `none` when control
reaches the final `return 0` fallback. -/
noncomputable def rank_y_plot_branch (star_data : StarRec) (all_stars : List StarRec) :
    Option ℝ :=
  if star_data.name = "Sagittarius A*" then some 0.7
  else if star_data.name = "Sol" then some 0
  else
    let current_y_plot := star_y_plot star_data
    if 0 < current_y_plot then
      let ps := positive_stars all_stars
      let names := ps.map (fun s => s.name)
      if star_data.name ∈ names then
        let rank := names.indexOf star_data.name
        let total_positive := ps.length
        some (if 1 < total_positive then
          0.1 + ((((total_positive : ℤ) - 1 - (rank : ℤ) : ℤ)) : ℝ) /
            ((total_positive : ℝ) - 1) * 0.47
        else 0.35)
      else none
    else
      let ns := negative_stars all_stars
      let names := ns.map (fun s => s.name)
      if star_data.name ∈ names then
        let rank := names.indexOf star_data.name
        let total_negative := ns.length
        some (if 1 < total_negative then
          -0.1 - ((rank : ℝ) / ((total_negative : ℝ) - 1)) * 0.47
        else -0.35)
      else none

/-- `rank_y_plot(star_data, all_stars)`: the branch value, with the
`return 0` fallback. -/
noncomputable def rank_y_plot (star_data : StarRec) (all_stars : List StarRec) : ℝ :=
  (rank_y_plot_branch star_data all_stars).getD 0

/-- C4: the anchors are pinned: `rank_y_plot` returns `0.7` for the record
named "Sagittarius A*" and `0` for the record named "Sol", whatever the
catalog. -/
theorem rank_y_plot_anchors (all_stars : List StarRec) (s : StarRec) :
    (s.name = "Sagittarius A*" → rank_y_plot s all_stars = 0.7) ∧
    (s.name = "Sol" → rank_y_plot s all_stars = 0) := by
  constructor
  · intro h
    unfold rank_y_plot rank_y_plot_branch
    rw [if_pos h]
    rfl
  · intro h
    unfold rank_y_plot rank_y_plot_branch
    rw [if_neg (by rw [h]; decide), if_pos h]
    rfl

/-- Witness for `rank_y_plot_anchors` at the two literal anchor records
of `STARS` with the full catalog. -/
theorem rank_y_plot_anchors_witness :
    (StarRec.mk "Sagittarius A*" 26000 0 0 60 "Wheel of Fortune" "X" "#000000"
        none).name = "Sagittarius A*" ∧
    rank_y_plot (StarRec.mk "Sagittarius A*" 26000 0 0 60 "Wheel of Fortune" "X"
        "#000000" none) STARS = 0.7 ∧
    (StarRec.mk "Sol" 0 180 0 40 "The Sun" "XIX" "#FFFF00" none).name = "Sol" ∧
    rank_y_plot (StarRec.mk "Sol" 0 180 0 40 "The Sun" "XIX" "#FFFF00" none)
      STARS = 0 :=
  ⟨rfl, (rank_y_plot_anchors STARS _).1 rfl, rfl, (rank_y_plot_anchors STARS _).2 rfl⟩

/-- A non-anchor member of the catalog contributes its entry to
`regular_stars`. -/
theorem mem_regular_stars {l : List StarRec} {s : StarRec} (hs : s ∈ l)
    (h1 : s.name ≠ "Sagittarius A*") (h2 : s.name ≠ "Sol") :
    RankedStar.mk s.name (star_y_plot s) ∈ regular_stars l := by
  unfold regular_stars
  exact List.mem_map_of_mem _ (List.mem_filter.mpr ⟨hs, by simp [h1, h2]⟩)

/-- Sorting does not change membership. -/
theorem mem_sorted_regular_stars {l : List StarRec} {x : RankedStar} :
    x ∈ sorted_regular_stars l ↔ x ∈ regular_stars l := by
  unfold sorted_regular_stars
  exact List.mem_mergeSort

/-- Every element of `regular_stars l` is the entry of some non-anchor
member of `l`. -/
theorem of_mem_regular_stars {l : List StarRec} {x : RankedStar}
    (hx : x ∈ regular_stars l) :
    ∃ t ∈ l, t.name ≠ "Sagittarius A*" ∧ t.name ≠ "Sol" ∧
      x = RankedStar.mk t.name (star_y_plot t) := by
  unfold regular_stars at hx
  obtain ⟨t, ht, rfl⟩ := List.mem_map.mp hx
  obtain ⟨htl, htp⟩ := List.mem_filter.mp ht
  simp only [decide_eq_true_eq, List.mem_cons, List.mem_singleton, not_or] at htp
  exact ⟨t, htl, htp.1, htp.2.1, rfl⟩

/-- If the catalog names are pairwise distinct, so are the names of the
sorted regular list. -/
theorem nodup_names_sorted {l : List StarRec}
    (h : (l.map (fun s => s.name)).Nodup) :
    ((sorted_regular_stars l).map (fun s => s.name)).Nodup := by
  have hsub : (List.map (fun s : StarRec => s.name)
        (l.filter (fun s => decide (s.name ∉ ["Sagittarius A*", "Sol"])))).Sublist
      (List.map (fun s : StarRec => s.name) l) :=
    List.Sublist.map _ (List.filter_sublist l)
  have h1 : ((regular_stars l).map (fun s => s.name)).Nodup := by
    unfold regular_stars
    rw [List.map_map]
    exact List.Nodup.sublist hsub h
  have hperm : (sorted_regular_stars l).Perm (regular_stars l) := by
    unfold sorted_regular_stars
    exact List.mergeSort_perm _ _
  exact (hperm.symm.map (fun s => s.name)).nodup h1

/-- Distinct catalog names give distinct names in the positive partition. -/
theorem nodup_names_positive {l : List StarRec}
    (h : (l.map (fun s => s.name)).Nodup) :
    ((positive_stars l).map (fun s => s.name)).Nodup := by
  have hsub : ((positive_stars l).map (fun s => s.name)).Sublist
      ((sorted_regular_stars l).map (fun s => s.name)) :=
    List.Sublist.map _ (List.filter_sublist _)
  exact List.Nodup.sublist hsub (nodup_names_sorted h)

/-- Distinct catalog names give distinct names in the negative partition. -/
theorem nodup_names_negative {l : List StarRec}
    (h : (l.map (fun s => s.name)).Nodup) :
    ((negative_stars l).map (fun s => s.name)).Nodup := by
  have hsub : ((negative_stars l).map (fun s => s.name)).Sublist
      ((sorted_regular_stars l).map (fun s => s.name)) :=
    List.Sublist.map _ (List.filter_sublist _)
  exact List.Nodup.sublist hsub (nodup_names_sorted h)

/-- A non-anchor member with positive `y_plot` has its entry in the
positive partition. -/
theorem entry_mem_positive {l : List StarRec} {s : StarRec} (hs : s ∈ l)
    (h1 : s.name ≠ "Sagittarius A*") (h2 : s.name ≠ "Sol")
    (hy : 0 < star_y_plot s) :
    RankedStar.mk s.name (star_y_plot s) ∈ positive_stars l := by
  unfold positive_stars
  exact List.mem_filter.mpr
    ⟨mem_sorted_regular_stars.mpr (mem_regular_stars hs h1 h2), by simpa using hy⟩

/-- A non-anchor member with nonpositive `y_plot` has its entry in the
negative partition. -/
theorem entry_mem_negative {l : List StarRec} {s : StarRec} (hs : s ∈ l)
    (h1 : s.name ≠ "Sagittarius A*") (h2 : s.name ≠ "Sol")
    (hy : star_y_plot s ≤ 0) :
    RankedStar.mk s.name (star_y_plot s) ∈ negative_stars l := by
  unfold negative_stars
  exact List.mem_filter.mpr
    ⟨mem_sorted_regular_stars.mpr (mem_regular_stars hs h1 h2), by simpa using hy⟩

/-- A non-anchor member with positive `y_plot` appears in the positive
partition's name list. -/
theorem name_mem_positive {l : List StarRec} {s : StarRec} (hs : s ∈ l)
    (h1 : s.name ≠ "Sagittarius A*") (h2 : s.name ≠ "Sol")
    (hy : 0 < star_y_plot s) :
    s.name ∈ (positive_stars l).map (fun t => t.name) :=
  List.mem_map_of_mem _ (entry_mem_positive hs h1 h2 hy)

/-- A non-anchor member with nonpositive `y_plot` appears in the negative
partition's name list. -/
theorem name_mem_negative {l : List StarRec} {s : StarRec} (hs : s ∈ l)
    (h1 : s.name ≠ "Sagittarius A*") (h2 : s.name ≠ "Sol")
    (hy : star_y_plot s ≤ 0) :
    s.name ∈ (negative_stars l).map (fun t => t.name) :=
  List.mem_map_of_mem _ (entry_mem_negative hs h1 h2 hy)

/-- Evaluation of the positive branch of `rank_y_plot_branch`. -/
theorem rank_y_plot_branch_pos {l : List StarRec} {s : StarRec}
    (h1 : s.name ≠ "Sagittarius A*") (h2 : s.name ≠ "Sol")
    (hy : 0 < star_y_plot s)
    (hmem : s.name ∈ (positive_stars l).map (fun t => t.name)) :
    rank_y_plot_branch s l =
      some (if 1 < (positive_stars l).length then
        0.1 + (((((positive_stars l).length : ℤ) - 1 -
          ((((positive_stars l).map (fun t => t.name)).indexOf s.name : ℕ) : ℤ) : ℤ)) : ℝ) /
          (((positive_stars l).length : ℝ) - 1) * 0.47
      else 0.35) := by
  unfold rank_y_plot_branch
  rw [if_neg h1, if_neg h2]
  dsimp only
  rw [if_pos hy, if_pos hmem]

/-- Evaluation of the negative branch of `rank_y_plot_branch`. -/
theorem rank_y_plot_branch_neg {l : List StarRec} {s : StarRec}
    (h1 : s.name ≠ "Sagittarius A*") (h2 : s.name ≠ "Sol")
    (hy : ¬(0 < star_y_plot s))
    (hmem : s.name ∈ (negative_stars l).map (fun t => t.name)) :
    rank_y_plot_branch s l =
      some (if 1 < (negative_stars l).length then
        -0.1 - (((((negative_stars l).map (fun t => t.name)).indexOf s.name : ℕ) : ℝ) /
          (((negative_stars l).length : ℝ) - 1)) * 0.47
      else -0.35) := by
  unfold rank_y_plot_branch
  rw [if_neg h1, if_neg h2]
  dsimp only
  rw [if_neg hy, if_pos hmem]

/-- The positive-branch return value lies in `[0.1, 0.57]` whenever the
rank is a valid index. -/
theorem pos_branch_value_mem {N r : ℕ} (hr : r < N) :
    (if 1 < N then
      0.1 + ((((N : ℤ) - 1 - (r : ℤ) : ℤ)) : ℝ) / ((N : ℝ) - 1) * 0.47
    else 0.35) ∈ Set.Icc (0.1 : ℝ) 0.57 := by
  by_cases hN : 1 < N
  · rw [if_pos hN]
    have hN' : (2 : ℝ) ≤ (N : ℝ) := by exact_mod_cast hN
    have hD : (0 : ℝ) < (N : ℝ) - 1 := by linarith
    have hr' : (r : ℝ) + 1 ≤ (N : ℝ) := by exact_mod_cast Nat.succ_le_of_lt hr
    have hr0 : (0 : ℝ) ≤ (r : ℝ) := Nat.cast_nonneg r
    have ht : ((((N : ℤ) - 1 - (r : ℤ) : ℤ)) : ℝ) = (N : ℝ) - 1 - (r : ℝ) := by
      push_cast; ring
    rw [ht]
    have h0 : 0 ≤ ((N : ℝ) - 1 - (r : ℝ)) / ((N : ℝ) - 1) :=
      div_nonneg (by linarith) hD.le
    have h1 : ((N : ℝ) - 1 - (r : ℝ)) / ((N : ℝ) - 1) ≤ 1 := by
      rw [div_le_one hD]; linarith
    constructor <;> nlinarith
  · rw [if_neg hN]; norm_num

/-- The negative-branch return value lies in `[-0.57, -0.1]` whenever the
rank is a valid index. -/
theorem neg_branch_value_mem {N r : ℕ} (hr : r < N) :
    (if 1 < N then -0.1 - ((r : ℝ) / ((N : ℝ) - 1)) * 0.47 else -0.35)
      ∈ Set.Icc (-0.57 : ℝ) (-0.1) := by
  by_cases hN : 1 < N
  · rw [if_pos hN]
    have hN' : (2 : ℝ) ≤ (N : ℝ) := by exact_mod_cast hN
    have hD : (0 : ℝ) < (N : ℝ) - 1 := by linarith
    have hr' : (r : ℝ) + 1 ≤ (N : ℝ) := by exact_mod_cast Nat.succ_le_of_lt hr
    have hr0 : (0 : ℝ) ≤ (r : ℝ) := Nat.cast_nonneg r
    have h0 : 0 ≤ (r : ℝ) / ((N : ℝ) - 1) := div_nonneg hr0 hD.le
    have h1 : (r : ℝ) / ((N : ℝ) - 1) ≤ 1 := by
      rw [div_le_one hD]; linarith
    constructor <;> nlinarith
  · rw [if_neg hN]; norm_num

/-- The rank computed in the positive branch is a valid index. -/
theorem pos_rank_lt {l : List StarRec} {s : StarRec}
    (hmem : s.name ∈ (positive_stars l).map (fun t => t.name)) :
    ((positive_stars l).map (fun t => t.name)).indexOf s.name <
      (positive_stars l).length := by
  have h := List.indexOf_lt_length.mpr hmem
  rwa [List.length_map] at h

/-- The rank computed in the negative branch is a valid index. -/
theorem neg_rank_lt {l : List StarRec} {s : StarRec}
    (hmem : s.name ∈ (negative_stars l).map (fun t => t.name)) :
    ((negative_stars l).map (fun t => t.name)).indexOf s.name <
      (negative_stars l).length := by
  have h := List.indexOf_lt_length.mpr hmem
  rwa [List.length_map] at h

/-- C10: for a member of the catalog, `rank_y_plot` always returns from a
named branch (the `return 0` fallback is unreachable): the anchors give
`0.7` and `0`, and every non-anchor member gives a value in `[0.1, 0.57]`
or in `[-0.57, -0.1]`. -/
theorem rank_y_plot_no_fallback (l : List StarRec) (s : StarRec) (hs : s ∈ l) :
    (rank_y_plot_branch s l).isSome = true ∧
    (s.name = "Sagittarius A*" → rank_y_plot_branch s l = some 0.7) ∧
    (s.name = "Sol" → rank_y_plot_branch s l = some 0) ∧
    (s.name ≠ "Sagittarius A*" → s.name ≠ "Sol" →
      ∃ v, rank_y_plot_branch s l = some v ∧ rank_y_plot s l = v ∧
        (v ∈ Set.Icc (0.1 : ℝ) 0.57 ∨ v ∈ Set.Icc (-0.57 : ℝ) (-0.1))) := by
  have hsag : s.name = "Sagittarius A*" → rank_y_plot_branch s l = some 0.7 := by
    intro h; unfold rank_y_plot_branch; rw [if_pos h]
  have hsol : s.name = "Sol" → rank_y_plot_branch s l = some 0 := by
    intro h; unfold rank_y_plot_branch; rw [if_neg (by rw [h]; decide), if_pos h]
  have hreg : s.name ≠ "Sagittarius A*" → s.name ≠ "Sol" →
      ∃ v, rank_y_plot_branch s l = some v ∧ rank_y_plot s l = v ∧
        (v ∈ Set.Icc (0.1 : ℝ) 0.57 ∨ v ∈ Set.Icc (-0.57 : ℝ) (-0.1)) := by
    intro h1 h2
    by_cases hy : 0 < star_y_plot s
    · have hmem := name_mem_positive hs h1 h2 hy
      have heval := rank_y_plot_branch_pos (l := l) h1 h2 hy hmem
      refine ⟨_, heval, ?_, Or.inl (pos_branch_value_mem (pos_rank_lt hmem))⟩
      unfold rank_y_plot
      rw [heval]
      rfl
    · have hmem := name_mem_negative hs h1 h2 (not_lt.mp hy)
      have heval := rank_y_plot_branch_neg (l := l) h1 h2 hy hmem
      refine ⟨_, heval, ?_, Or.inr (neg_branch_value_mem (neg_rank_lt hmem))⟩
      unfold rank_y_plot
      rw [heval]
      rfl
  refine ⟨?_, hsag, hsol, hreg⟩
  by_cases ha : s.name = "Sagittarius A*"
  · rw [hsag ha]; rfl
  · by_cases hb : s.name = "Sol"
    · rw [hsol hb]; rfl
    · obtain ⟨v, hv, -, -⟩ := hreg ha hb
      rw [hv]; rfl

/-- Witness for `rank_y_plot_no_fallback`: the literal Antares record is a
member of `STARS` and gets a branch value. -/
theorem rank_y_plot_no_fallback_witness :
    StarRec.mk "Antares" 550 351 (-4.6) 55 "The Hierophant" "V" "#FF4500" none
        ∈ STARS ∧
    (rank_y_plot_branch
      (StarRec.mk "Antares" 550 351 (-4.6) 55 "The Hierophant" "V" "#FF4500" none)
      STARS).isSome = true := by
  have hmem : StarRec.mk "Antares" 550 351 (-4.6) 55 "The Hierophant" "V"
      "#FF4500" none ∈ STARS := by
    unfold STARS
    exact List.mem_cons_of_mem _ (List.mem_cons_of_mem _ (List.mem_cons_of_mem _
      (List.mem_cons_of_mem _ (List.mem_cons_self _ _))))
  exact ⟨hmem, (rank_y_plot_no_fallback STARS _ hmem).1⟩

/-- C9: a non-anchor member whose `y_plot` is exactly `0` lands in the
farther-than-observer partition (`y_plot <= 0`) and is assigned a negative
position in `[-0.57, -0.1]`. -/
theorem rank_y_plot_zero_goes_negative (l : List StarRec) (s : StarRec)
    (hs : s ∈ l) (h1 : s.name ≠ "Sagittarius A*") (h2 : s.name ≠ "Sol")
    (hy : star_y_plot s = 0) :
    RankedStar.mk s.name (star_y_plot s) ∈ negative_stars l ∧
    rank_y_plot s l ∈ Set.Icc (-0.57 : ℝ) (-0.1) ∧
    rank_y_plot s l < 0 := by
  have hyle : star_y_plot s ≤ 0 := le_of_eq hy
  have hy0 : ¬(0 < star_y_plot s) := by rw [hy]; exact lt_irrefl 0
  have hmem := name_mem_negative hs h1 h2 hyle
  have heval := rank_y_plot_branch_neg (l := l) h1 h2 hy0 hmem
  have hval : rank_y_plot s l ∈ Set.Icc (-0.57 : ℝ) (-0.1) := by
    have hv := neg_branch_value_mem (neg_rank_lt hmem)
    have : rank_y_plot s l = (if 1 < (negative_stars l).length then
        -0.1 - (((((negative_stars l).map (fun t => t.name)).indexOf s.name : ℕ) : ℝ) /
          (((negative_stars l).length : ℝ) - 1)) * 0.47
      else -0.35) := by
      unfold rank_y_plot
      rw [heval]
      rfl
    rw [this]
    exact hv
  refine ⟨entry_mem_negative hs h1 h2 hyle, hval, ?_⟩
  have := hval.2
  linarith

/-- C5: a non-anchor member whose partition is a singleton gets the fixed
midpoint `0.35` (closer group) or `-0.35` (farther group); the division by
`partition size - 1` is guarded behind `1 < size` and never reached. -/
theorem rank_y_plot_singleton (l : List StarRec) (s : StarRec) (hs : s ∈ l)
    (h1 : s.name ≠ "Sagittarius A*") (h2 : s.name ≠ "Sol") :
    (0 < star_y_plot s → (positive_stars l).length = 1 →
      rank_y_plot_branch s l = some 0.35 ∧ rank_y_plot s l = 0.35) ∧
    (star_y_plot s ≤ 0 → (negative_stars l).length = 1 →
      rank_y_plot_branch s l = some (-0.35) ∧ rank_y_plot s l = -0.35) := by
  constructor
  · intro hy hN
    have hmem := name_mem_positive hs h1 h2 hy
    have heval := rank_y_plot_branch_pos (l := l) h1 h2 hy hmem
    rw [hN] at heval
    norm_num at heval
    refine ⟨by rw [heval]; norm_num, ?_⟩
    unfold rank_y_plot
    rw [heval]
    norm_num [Option.getD_some]
  · intro hy hN
    have hy0 : ¬(0 < star_y_plot s) := not_lt.mpr hy
    have hmem := name_mem_negative hs h1 h2 hy
    have heval := rank_y_plot_branch_neg (l := l) h1 h2 hy0 hmem
    rw [hN] at heval
    norm_num at heval
    refine ⟨by rw [heval]; norm_num, ?_⟩
    unfold rank_y_plot
    rw [heval]
    norm_num [Option.getD_some]

/-- The evenly spaced closer-group position of the spec:
`0.1 + k * 0.47 / (N - 1)` for rank index `k`. -/
noncomputable def closer_slot (N k : ℕ) : ℝ :=
  0.1 + (k : ℝ) * 0.47 / ((N : ℝ) - 1)

/-- The evenly spaced farther-group position of the spec:
`-0.1 - k * 0.47 / (N - 1)` for rank index `k`. -/
noncomputable def farther_slot (N k : ℕ) : ℝ :=
  -0.1 - (k : ℝ) * 0.47 / ((N : ℝ) - 1)

/-- The stable sort leaves the regular list weakly descending in `y_plot`. -/
theorem sorted_regular_pairwise (l : List StarRec) :
    (sorted_regular_stars l).Pairwise (fun a b => b.y_plot ≤ a.y_plot) := by
  unfold sorted_regular_stars
  have htrans : ∀ a b c : RankedStar,
      (fun a b => decide (b.y_plot ≤ a.y_plot)) a b = true →
      (fun a b => decide (b.y_plot ≤ a.y_plot)) b c = true →
      (fun a b => decide (b.y_plot ≤ a.y_plot)) a c = true := by
    intro a b c hab hbc
    rw [decide_eq_true_eq] at hab hbc ⊢
    exact le_trans hbc hab
  have htotal : ∀ a b : RankedStar,
      ((fun a b => decide (b.y_plot ≤ a.y_plot)) a b ||
        (fun a b => decide (b.y_plot ≤ a.y_plot)) b a) = true := by
    intro a b
    rw [Bool.or_eq_true, decide_eq_true_eq, decide_eq_true_eq]
    exact le_total b.y_plot a.y_plot
  have h := List.sorted_mergeSort htrans htotal (regular_stars l)
  exact h.imp (fun hab => of_decide_eq_true hab)

/-- The positive partition is weakly descending in `y_plot`. -/
theorem positive_stars_pairwise (l : List StarRec) :
    (positive_stars l).Pairwise (fun a b => b.y_plot ≤ a.y_plot) :=
  List.Pairwise.sublist (List.filter_sublist _) (sorted_regular_pairwise l)

/-- The negative partition is weakly descending in `y_plot`. -/
theorem negative_stars_pairwise (l : List StarRec) :
    (negative_stars l).Pairwise (fun a b => b.y_plot ≤ a.y_plot) :=
  List.Pairwise.sublist (List.filter_sublist _) (sorted_regular_pairwise l)

/-- The member of the catalog named like the `j`-th entry of the positive
partition receives position `closer_slot N (N - 1 - j)`. -/
theorem rank_eq_closer_slot {l : List StarRec}
    (hnd : (l.map (fun s => s.name)).Nodup)
    (hN : 1 < (positive_stars l).length)
    {s : StarRec} (hs : s ∈ l) {j : ℕ} (hj : j < (positive_stars l).length)
    (hname : s.name = ((positive_stars l).get ⟨j, hj⟩).name) :
    rank_y_plot s l =
      closer_slot (positive_stars l).length ((positive_stars l).length - 1 - j) := by
  have he : (positive_stars l).get ⟨j, hj⟩ ∈ positive_stars l :=
    List.get_mem _ _ _
  obtain ⟨hsort, hposb⟩ := List.mem_filter.mp
    (show (positive_stars l).get ⟨j, hj⟩ ∈
      List.filter (fun s => decide (0 < s.y_plot)) (sorted_regular_stars l) from he)
  have hpose : 0 < ((positive_stars l).get ⟨j, hj⟩).y_plot := by
    simpa using hposb
  obtain ⟨t, htl, ht1, ht2, hte⟩ :=
    of_mem_regular_stars (mem_sorted_regular_stars.mp hsort)
  have hname' : s.name = t.name := by rw [hname, hte]
  have hst : s = t := List.inj_on_of_nodup_map hnd hs htl hname'
  subst hst
  have hy : 0 < star_y_plot s := by
    have : ((positive_stars l).get ⟨j, hj⟩).y_plot = star_y_plot s := by rw [hte]
    rwa [this] at hpose
  have hmem : s.name ∈ (positive_stars l).map (fun t => t.name) := by
    rw [hname]
    exact List.mem_map_of_mem _ he
  have heval := rank_y_plot_branch_pos (l := l) ht1 ht2 hy hmem
  have hjlen : j < ((positive_stars l).map (fun t => t.name)).length := by
    rw [List.length_map]; exact hj
  have hget : ((positive_stars l).map (fun t => t.name)).get ⟨j, hjlen⟩ = s.name := by
    rw [List.get_map]
    exact hname.symm
  have hidx : ((positive_stars l).map (fun t => t.name)).indexOf s.name = j := by
    rw [← hget]
    exact List.get_indexOf (nodup_names_positive hnd) ⟨j, hjlen⟩
  have hval : rank_y_plot s l = (if 1 < (positive_stars l).length then
      0.1 + (((((positive_stars l).length : ℤ) - 1 - (j : ℤ) : ℤ)) : ℝ) /
        (((positive_stars l).length : ℝ) - 1) * 0.47
    else 0.35) := by
    unfold rank_y_plot
    rw [heval, hidx]
    rfl
  rw [hval, if_pos hN]
  unfold closer_slot
  have h1N : 1 ≤ (positive_stars l).length := le_of_lt hN
  have hj1 : j ≤ (positive_stars l).length - 1 := Nat.le_pred_of_lt hj
  rw [Nat.cast_sub hj1, Nat.cast_sub h1N]
  push_cast
  ring

/-- The member of the catalog named like the `j`-th entry of the negative
partition receives position `farther_slot N j`. -/
theorem rank_eq_farther_slot {l : List StarRec}
    (hnd : (l.map (fun s => s.name)).Nodup)
    (hN : 1 < (negative_stars l).length)
    {s : StarRec} (hs : s ∈ l) {j : ℕ} (hj : j < (negative_stars l).length)
    (hname : s.name = ((negative_stars l).get ⟨j, hj⟩).name) :
    rank_y_plot s l = farther_slot (negative_stars l).length j := by
  have he : (negative_stars l).get ⟨j, hj⟩ ∈ negative_stars l :=
    List.get_mem _ _ _
  obtain ⟨hsort, hnegb⟩ := List.mem_filter.mp
    (show (negative_stars l).get ⟨j, hj⟩ ∈
      List.filter (fun s => decide (s.y_plot ≤ 0)) (sorted_regular_stars l) from he)
  have hnege : ((negative_stars l).get ⟨j, hj⟩).y_plot ≤ 0 := by
    simpa using hnegb
  obtain ⟨t, htl, ht1, ht2, hte⟩ :=
    of_mem_regular_stars (mem_sorted_regular_stars.mp hsort)
  have hname' : s.name = t.name := by rw [hname, hte]
  have hst : s = t := List.inj_on_of_nodup_map hnd hs htl hname'
  subst hst
  have hy : star_y_plot s ≤ 0 := by
    have : ((negative_stars l).get ⟨j, hj⟩).y_plot = star_y_plot s := by rw [hte]
    rwa [this] at hnege
  have hmem : s.name ∈ (negative_stars l).map (fun t => t.name) := by
    rw [hname]
    exact List.mem_map_of_mem _ he
  have heval := rank_y_plot_branch_neg (l := l) ht1 ht2 (not_lt.mpr hy) hmem
  have hjlen : j < ((negative_stars l).map (fun t => t.name)).length := by
    rw [List.length_map]; exact hj
  have hget : ((negative_stars l).map (fun t => t.name)).get ⟨j, hjlen⟩ = s.name := by
    rw [List.get_map]
    exact hname.symm
  have hidx : ((negative_stars l).map (fun t => t.name)).indexOf s.name = j := by
    rw [← hget]
    exact List.get_indexOf (nodup_names_negative hnd) ⟨j, hjlen⟩
  have hval : rank_y_plot s l = (if 1 < (negative_stars l).length then
      -0.1 - ((j : ℝ) / (((negative_stars l).length : ℝ) - 1)) * 0.47
    else -0.35) := by
    unfold rank_y_plot
    rw [heval, hidx]
    rfl
  rw [hval, if_pos hN]
  unfold farther_slot
  ring

/-- `closer_slot` is strictly increasing in the rank index. -/
theorem closer_slot_strict_mono {N k1 k2 : ℕ} (hN : 1 < N) (hk : k1 < k2) :
    closer_slot N k1 < closer_slot N k2 := by
  unfold closer_slot
  have hN' : (2 : ℝ) ≤ (N : ℝ) := by exact_mod_cast hN
  have hD : (0 : ℝ) < (N : ℝ) - 1 := by linarith
  have hinv : (0 : ℝ) < ((N : ℝ) - 1)⁻¹ := inv_pos.mpr hD
  have hk' : (k1 : ℝ) < (k2 : ℝ) := Nat.cast_lt.mpr hk
  rw [div_eq_mul_inv, div_eq_mul_inv]
  nlinarith

/-- `farther_slot` is strictly decreasing in the rank index. -/
theorem farther_slot_strict_anti {N k1 k2 : ℕ} (hN : 1 < N) (hk : k1 < k2) :
    farther_slot N k2 < farther_slot N k1 := by
  unfold farther_slot
  have hN' : (2 : ℝ) ≤ (N : ℝ) := by exact_mod_cast hN
  have hD : (0 : ℝ) < (N : ℝ) - 1 := by linarith
  have hinv : (0 : ℝ) < ((N : ℝ) - 1)⁻¹ := inv_pos.mpr hD
  have hk' : (k1 : ℝ) < (k2 : ℝ) := Nat.cast_lt.mpr hk
  rw [div_eq_mul_inv, div_eq_mul_inv]
  nlinarith

/-- The bottom slot of the closer group is `0.1`. -/
theorem closer_slot_zero (N : ℕ) : closer_slot N 0 = 0.1 := by
  unfold closer_slot; norm_num

/-- The top slot of the closer group is `0.57`. -/
theorem closer_slot_top {N : ℕ} (hN : 1 < N) : closer_slot N (N - 1) = 0.57 := by
  unfold closer_slot
  have h1N : 1 ≤ N := le_of_lt hN
  have hN' : (2 : ℝ) ≤ (N : ℝ) := by exact_mod_cast hN
  have hD : ((N : ℝ) - 1) ≠ 0 := by linarith
  rw [Nat.cast_sub h1N]
  push_cast
  field_simp
  ring

/-- The top slot of the farther group is `-0.1`. -/
theorem farther_slot_zero (N : ℕ) : farther_slot N 0 = -0.1 := by
  unfold farther_slot; norm_num

/-- The bottom slot of the farther group is `-0.57`. -/
theorem farther_slot_bottom {N : ℕ} (hN : 1 < N) : farther_slot N (N - 1) = -0.57 := by
  unfold farther_slot
  have h1N : 1 ≤ N := le_of_lt hN
  have hN' : (2 : ℝ) ≤ (N : ℝ) := by exact_mod_cast hN
  have hD : ((N : ℝ) - 1) ≠ 0 := by linarith
  rw [Nat.cast_sub h1N]
  push_cast
  field_simp
  ring

/-- Every closer-group slot lies in `[0.1, 0.57]`. -/
theorem closer_slot_mem {N k : ℕ} (hN : 1 < N) (hk : k < N) :
    closer_slot N k ∈ Set.Icc (0.1 : ℝ) 0.57 := by
  unfold closer_slot
  have hN' : (2 : ℝ) ≤ (N : ℝ) := by exact_mod_cast hN
  have hD : (0 : ℝ) < (N : ℝ) - 1 := by linarith
  have hk1 : (k : ℝ) + 1 ≤ (N : ℝ) := by exact_mod_cast Nat.succ_le_of_lt hk
  have hk0 : (0 : ℝ) ≤ (k : ℝ) := Nat.cast_nonneg k
  have h0 : 0 ≤ (k : ℝ) * 0.47 / ((N : ℝ) - 1) := by positivity
  have h1 : (k : ℝ) * 0.47 / ((N : ℝ) - 1) ≤ 0.47 := by
    rw [div_le_iff hD]; nlinarith
  exact ⟨by linarith, by linarith⟩

/-- Every farther-group slot lies in `[-0.57, -0.1]`. -/
theorem farther_slot_mem {N k : ℕ} (hN : 1 < N) (hk : k < N) :
    farther_slot N k ∈ Set.Icc (-0.57 : ℝ) (-0.1) := by
  unfold farther_slot
  have hN' : (2 : ℝ) ≤ (N : ℝ) := by exact_mod_cast hN
  have hD : (0 : ℝ) < (N : ℝ) - 1 := by linarith
  have hk1 : (k : ℝ) + 1 ≤ (N : ℝ) := by exact_mod_cast Nat.succ_le_of_lt hk
  have hk0 : (0 : ℝ) ≤ (k : ℝ) := Nat.cast_nonneg k
  have h0 : 0 ≤ (k : ℝ) * 0.47 / ((N : ℝ) - 1) := by positivity
  have h1 : (k : ℝ) * 0.47 / ((N : ℝ) - 1) ≤ 0.47 := by
    rw [div_le_iff hD]; nlinarith
  exact ⟨by linarith, by linarith⟩

/-- C1: with pairwise-distinct catalog names and a partition of size
`N > 1`, `rank_y_plot` assigns the `j`-th member of the sorted partition
the evenly spaced position `0.1 + (N-1-j) * 0.47 / (N-1)` (closer group)
or `-0.1 - j * 0.47 / (N-1)` (farther group); the partitions are sorted by
the distance measure, the slots are strictly monotonic in the rank index,
and they span exactly `[0.1, 0.57]`, respectively `[-0.57, -0.1]`. -/
theorem rank_y_plot_even_spacing (l : List StarRec)
    (hnd : (l.map (fun s => s.name)).Nodup) :
    (1 < (positive_stars l).length →
      (positive_stars l).Pairwise (fun a b => b.y_plot ≤ a.y_plot) ∧
      (∀ s ∈ l, ∀ j : ℕ, ∀ hj : j < (positive_stars l).length,
        s.name = ((positive_stars l).get ⟨j, hj⟩).name →
        rank_y_plot s l = closer_slot (positive_stars l).length
          ((positive_stars l).length - 1 - j)) ∧
      (∀ k1 k2 : ℕ, k1 < k2 → k2 < (positive_stars l).length →
        closer_slot (positive_stars l).length k1 <
          closer_slot (positive_stars l).length k2) ∧
      closer_slot (positive_stars l).length 0 = 0.1 ∧
      closer_slot (positive_stars l).length ((positive_stars l).length - 1) = 0.57 ∧
      (∀ k : ℕ, k < (positive_stars l).length →
        closer_slot (positive_stars l).length k ∈ Set.Icc (0.1 : ℝ) 0.57)) ∧
    (1 < (negative_stars l).length →
      (negative_stars l).Pairwise (fun a b => b.y_plot ≤ a.y_plot) ∧
      (∀ s ∈ l, ∀ j : ℕ, ∀ hj : j < (negative_stars l).length,
        s.name = ((negative_stars l).get ⟨j, hj⟩).name →
        rank_y_plot s l = farther_slot (negative_stars l).length j) ∧
      (∀ k1 k2 : ℕ, k1 < k2 → k2 < (negative_stars l).length →
        farther_slot (negative_stars l).length k2 <
          farther_slot (negative_stars l).length k1) ∧
      farther_slot (negative_stars l).length 0 = -0.1 ∧
      farther_slot (negative_stars l).length ((negative_stars l).length - 1) = -0.57 ∧
      (∀ k : ℕ, k < (negative_stars l).length →
        farther_slot (negative_stars l).length k ∈ Set.Icc (-0.57 : ℝ) (-0.1))) := by
  constructor
  · intro hN
    refine ⟨positive_stars_pairwise l, ?_, ?_, closer_slot_zero _,
      closer_slot_top hN, ?_⟩
    · intro s hs j hj hname
      exact rank_eq_closer_slot hnd hN hs hj hname
    · intro k1 k2 hk _
      exact closer_slot_strict_mono hN hk
    · intro k hk
      exact closer_slot_mem hN hk
  · intro hN
    refine ⟨negative_stars_pairwise l, ?_, ?_, farther_slot_zero _,
      farther_slot_bottom hN, ?_⟩
    · intro s hs j hj hname
      exact rank_eq_farther_slot hnd hN hs hj hname
    · intro k1 k2 hk _
      exact farther_slot_strict_anti hN hk
    · intro k hk
      exact farther_slot_mem hN hk

/-- 0 degrees is 0 radians. -/
theorem radians_zero : radians 0 = 0 := by unfold radians; ring

/-- 180 degrees is π radians. -/
theorem radians_180 : radians 180 = Real.pi := by unfold radians; ring

/-- 90 degrees is π/2 radians. -/
theorem radians_90 : radians 90 = Real.pi / 2 := by unfold radians; ring

/-- A star in the galactic plane at longitude 0 has `y_plot` equal to its
distance. -/
theorem star_y_plot_lon0 (nm : String) (d sz : ℝ) (ta ro co : String)
    (ec : Option String) :
    star_y_plot (StarRec.mk nm d 0 0 sz ta ro co ec) = d := by
  unfold star_y_plot galactic_to_cartesian
  dsimp only
  rw [radians_zero]
  simp

/-- A star in the galactic plane at longitude 180 has `y_plot` equal to
minus its distance. -/
theorem star_y_plot_lon180 (nm : String) (d sz : ℝ) (ta ro co : String)
    (ec : Option String) :
    star_y_plot (StarRec.mk nm d 180 0 sz ta ro co ec) = -d := by
  unfold star_y_plot galactic_to_cartesian
  dsimp only
  rw [radians_zero, radians_180]
  simp

/-- A star in the galactic plane at longitude 90 has `y_plot` zero. -/
theorem star_y_plot_lon90 (nm : String) (d sz : ℝ) (ta ro co : String)
    (ec : Option String) :
    star_y_plot (StarRec.mk nm d 90 0 sz ta ro co ec) = 0 := by
  unfold star_y_plot galactic_to_cartesian
  dsimp only
  rw [radians_zero, radians_90]
  simp

/-- `regular_stars` keeps a non-anchor head. -/
theorem regular_stars_cons_keep {s : StarRec} {rest : List StarRec}
    (h1 : s.name ≠ "Sagittarius A*") (h2 : s.name ≠ "Sol") :
    regular_stars (s :: rest) =
      RankedStar.mk s.name (star_y_plot s) :: regular_stars rest := by
  unfold regular_stars
  rw [List.filter_cons, if_pos (by simp [h1, h2]), List.map_cons]

/-- `regular_stars` of the empty catalog is empty. -/
theorem regular_stars_nil : regular_stars [] = [] := rfl

/-- Test catalog for the ranking theorems: four non-anchor stars in the
galactic plane with `y_plot` values `2, 1, -1, -2`. -/
def wA : StarRec := StarRec.mk "A" 2 0 0 1 "t" "r" "c" none

/-- Second test star, `y_plot = 1`. -/
def wB : StarRec := StarRec.mk "B" 1 0 0 1 "t" "r" "c" none

/-- Third test star, `y_plot = -1`. -/
def wC : StarRec := StarRec.mk "C" 1 180 0 1 "t" "r" "c" none

/-- Fourth test star, `y_plot = -2`. -/
def wD : StarRec := StarRec.mk "D" 2 180 0 1 "t" "r" "c" none

/-- Test star with `y_plot = 0` (longitude 90). -/
def wE : StarRec := StarRec.mk "E" 1 90 0 1 "t" "r" "c" none

/-- Test catalog with two-member partitions. -/
def wl : List StarRec := [wA, wB, wC, wD]

/-- Test catalog with singleton partitions. -/
def wl2 : List StarRec := [wB, wC]

/-- `y_plot` of the first test star. -/
theorem star_y_plot_wA : star_y_plot wA = 2 := star_y_plot_lon0 _ _ _ _ _ _ _

/-- `y_plot` of the second test star. -/
theorem star_y_plot_wB : star_y_plot wB = 1 := star_y_plot_lon0 _ _ _ _ _ _ _

/-- `y_plot` of the third test star. -/
theorem star_y_plot_wC : star_y_plot wC = -1 := star_y_plot_lon180 _ _ _ _ _ _ _

/-- `y_plot` of the fourth test star. -/
theorem star_y_plot_wD : star_y_plot wD = -2 := star_y_plot_lon180 _ _ _ _ _ _ _

/-- `y_plot` of the zero test star. -/
theorem star_y_plot_wE : star_y_plot wE = 0 := star_y_plot_lon90 _ _ _ _ _ _ _

/-- The regular list of the four-star test catalog. -/
theorem w_regular : regular_stars wl =
    [RankedStar.mk "A" 2, RankedStar.mk "B" 1,
     RankedStar.mk "C" (-1), RankedStar.mk "D" (-2)] := by
  show regular_stars (wA :: wB :: wC :: wD :: []) = _
  rw [regular_stars_cons_keep (by decide) (by decide),
    regular_stars_cons_keep (by decide) (by decide),
    regular_stars_cons_keep (by decide) (by decide),
    regular_stars_cons_keep (by decide) (by decide), regular_stars_nil,
    star_y_plot_wA, star_y_plot_wB, star_y_plot_wC, star_y_plot_wD]
  rfl

/-- The sorted regular list of the four-star test catalog. -/
theorem w_sorted : sorted_regular_stars wl =
    [RankedStar.mk "A" 2, RankedStar.mk "B" 1,
     RankedStar.mk "C" (-1), RankedStar.mk "D" (-2)] := by
  unfold sorted_regular_stars
  rw [w_regular]
  apply List.mergeSort_of_sorted
  norm_num [List.pairwise_cons]

/-- The positive partition of the four-star test catalog. -/
theorem w_pos : positive_stars wl = [RankedStar.mk "A" 2, RankedStar.mk "B" 1] := by
  unfold positive_stars
  rw [w_sorted]
  rw [List.filter_cons, if_pos (by norm_num), List.filter_cons, if_pos (by norm_num),
    List.filter_cons, if_neg (by norm_num), List.filter_cons, if_neg (by norm_num),
    List.filter_nil]

/-- The negative partition of the four-star test catalog. -/
theorem w_neg : negative_stars wl =
    [RankedStar.mk "C" (-1), RankedStar.mk "D" (-2)] := by
  unfold negative_stars
  rw [w_sorted]
  rw [List.filter_cons, if_neg (by norm_num), List.filter_cons, if_neg (by norm_num),
    List.filter_cons, if_pos (by norm_num), List.filter_cons, if_pos (by norm_num),
    List.filter_nil]

/-- The regular list of the two-star test catalog. -/
theorem w2_regular : regular_stars wl2 =
    [RankedStar.mk "B" 1, RankedStar.mk "C" (-1)] := by
  show regular_stars (wB :: wC :: []) = _
  rw [regular_stars_cons_keep (by decide) (by decide),
    regular_stars_cons_keep (by decide) (by decide), regular_stars_nil,
    star_y_plot_wB, star_y_plot_wC]
  rfl

/-- The sorted regular list of the two-star test catalog. -/
theorem w2_sorted : sorted_regular_stars wl2 =
    [RankedStar.mk "B" 1, RankedStar.mk "C" (-1)] := by
  unfold sorted_regular_stars
  rw [w2_regular]
  apply List.mergeSort_of_sorted
  norm_num [List.pairwise_cons]

/-- The positive partition of the two-star test catalog is a singleton. -/
theorem w2_pos : positive_stars wl2 = [RankedStar.mk "B" 1] := by
  unfold positive_stars
  rw [w2_sorted]
  rw [List.filter_cons, if_pos (by norm_num), List.filter_cons, if_neg (by norm_num),
    List.filter_nil]

/-- The negative partition of the two-star test catalog is a singleton. -/
theorem w2_neg : negative_stars wl2 = [RankedStar.mk "C" (-1)] := by
  unfold negative_stars
  rw [w2_sorted]
  rw [List.filter_cons, if_neg (by norm_num), List.filter_cons, if_pos (by norm_num),
    List.filter_nil]

/-- Witness for `rank_y_plot_even_spacing` on the four-star test catalog:
the two-member partitions get exactly the endpoints `0.57, 0.1` and
`-0.1, -0.57`. -/
theorem rank_y_plot_even_spacing_witness :
    (wl.map (fun s => s.name)).Nodup ∧
    rank_y_plot wA wl = 0.57 ∧ rank_y_plot wB wl = 0.1 ∧
    rank_y_plot wC wl = -0.1 ∧ rank_y_plot wD wl = -0.57 := by
  have hnd : (wl.map (fun s => s.name)).Nodup := by decide
  obtain ⟨hpos, hneg⟩ := rank_y_plot_even_spacing wl hnd
  have hNp : 1 < (positive_stars wl).length := by rw [w_pos]; norm_num
  have hNn : 1 < (negative_stars wl).length := by rw [w_neg]; norm_num
  obtain ⟨-, hppos, -, -, -, -⟩ := hpos hNp
  obtain ⟨-, hpneg, -, -, -, -⟩ := hneg hNn
  have hmA : wA ∈ wl := by unfold wl; exact List.mem_cons_self _ _
  have hmB : wB ∈ wl := by
    unfold wl; exact List.mem_cons_of_mem _ (List.mem_cons_self _ _)
  have hmC : wC ∈ wl := by
    unfold wl
    exact List.mem_cons_of_mem _ (List.mem_cons_of_mem _ (List.mem_cons_self _ _))
  have hmD : wD ∈ wl := by
    unfold wl
    exact List.mem_cons_of_mem _ (List.mem_cons_of_mem _
      (List.mem_cons_of_mem _ (List.mem_cons_self _ _)))
  refine ⟨hnd, ?_, ?_, ?_, ?_⟩
  · have h := hppos wA hmA 0 (by rw [w_pos]; norm_num) (by simp [w_pos, wA])
    rw [h, w_pos]
    unfold closer_slot
    norm_num
  · have h := hppos wB hmB 1 (by rw [w_pos]; norm_num) (by simp [w_pos, wB])
    rw [h, w_pos]
    unfold closer_slot
    norm_num
  · have h := hpneg wC hmC 0 (by rw [w_neg]; norm_num) (by simp [w_neg, wC])
    rw [h, w_neg]
    unfold farther_slot
    norm_num
  · have h := hpneg wD hmD 1 (by rw [w_neg]; norm_num) (by simp [w_neg, wD])
    rw [h, w_neg]
    unfold farther_slot
    norm_num

/-- Witness for `rank_y_plot_singleton` on the two-star test catalog. -/
theorem rank_y_plot_singleton_witness :
    wB ∈ wl2 ∧ 0 < star_y_plot wB ∧ (positive_stars wl2).length = 1 ∧
    rank_y_plot wB wl2 = 0.35 ∧
    wC ∈ wl2 ∧ star_y_plot wC ≤ 0 ∧ (negative_stars wl2).length = 1 ∧
    rank_y_plot wC wl2 = -0.35 := by
  have hmB : wB ∈ wl2 := by unfold wl2; exact List.mem_cons_self _ _
  have hmC : wC ∈ wl2 := by
    unfold wl2; exact List.mem_cons_of_mem _ (List.mem_cons_self _ _)
  have hyB : 0 < star_y_plot wB := by rw [star_y_plot_wB]; norm_num
  have hyC : star_y_plot wC ≤ 0 := by rw [star_y_plot_wC]; norm_num
  have hNp : (positive_stars wl2).length = 1 := by rw [w2_pos]; rfl
  have hNn : (negative_stars wl2).length = 1 := by rw [w2_neg]; rfl
  refine ⟨hmB, hyB, hNp, ?_, hmC, hyC, hNn, ?_⟩
  · exact ((rank_y_plot_singleton wl2 wB hmB (by decide) (by decide)).1 hyB hNp).2
  · exact ((rank_y_plot_singleton wl2 wC hmC (by decide) (by decide)).2 hyC hNn).2

/-- Witness for `rank_y_plot_zero_goes_negative` on a star with `y_plot`
exactly zero. -/
theorem rank_y_plot_zero_goes_negative_witness :
    wE ∈ [wE] ∧ star_y_plot wE = 0 ∧ rank_y_plot wE [wE] < 0 :=
  ⟨List.mem_cons_self _ _, star_y_plot_wE,
    (rank_y_plot_zero_goes_negative [wE] wE (List.mem_cons_self _ _)
      (by decide) (by decide) star_y_plot_wE).2.2⟩

end CygniArcana
